import Mathlib

/-!
Verification development for the sequential-execution coordinator of a
text-to-speech MCP server: the bounded cancellation registry
(cmd/cancellation_manager.go), the cross-process directory lock with
stale-holder detection and the process-liveness check (the lock and
process files), and the sequential lock facade (cmd/root.go).

The embedding is shallow: the Go maps of the registry become association
lists with Go map semantics, filesystem and platform effects become
explicit event traces over oracle environments, and the concurrency in the
facade (a select between a lock-acquiring goroutine and context
cancellation) becomes an explicit race-outcome parameter.
-/

/-- Correlation ids / request ids are Go byte strings; modelled as lists of
characters (the repository only ever uses ASCII ids, where Go byte slicing
and character slicing coincide). -/
abbrev ReqId := List Char

/-- Lookup in an association list, mirroring Go map indexing. -/
def alistLookup {α : Type} (k : ReqId) : List (ReqId × α) → Option α
  | [] => none
  | p :: rest => if p.1 = k then some p.2 else alistLookup k rest

/-- Insert/replace in an association list, mirroring Go map assignment. -/
def alistInsert {α : Type} (k : ReqId) (v : α) : List (ReqId × α) → List (ReqId × α)
  | [] => [(k, v)]
  | p :: rest => if p.1 = k then (k, v) :: rest else p :: alistInsert k v rest

/-- Remove a key from an association list, mirroring Go map delete. -/
def alistErase {α : Type} (k : ReqId) : List (ReqId × α) → List (ReqId × α)
  | [] => []
  | p :: rest => if p.1 = k then rest else p :: alistErase k rest

/-- Observable effects of the cancellation registry: a stored cancellation
trigger being invoked, and expiry timers being started, stopped (without
firing), or firing. Triggers and timers are identified by opaque numbers. -/
inductive CMEvent
  | triggerInvoked (f : Nat)
  | timerStarted (t : Nat)
  | timerStopped (t : Nat)
  | timerFired (t : Nat)
  deriving DecidableEq

/-- MaxConcurrentRequests from cmd/cancellation_manager.go. -/
def MaxConcurrentRequests : Nat := 1000

/-- The state of a CancellationManager: the `cancellable` map (request id to
cancel-function identity), the `timeouts` map (request id to timer identity),
a counter supplying fresh timer identities, and the configured capacity. -/
structure CMState where
  cancellable : List (ReqId × Nat)
  timeouts : List (ReqId × Nat)
  nextTimer : Nat
  maxRequests : Nat
  deriving DecidableEq

/-- NewCancellationManager: empty maps, capacity MaxConcurrentRequests. -/
def NewCancellationManager : CMState :=
  { cancellable := [], timeouts := [], nextTimer := 0
    maxRequests := MaxConcurrentRequests }

/-- Errors of the registry: ErrTooManyRequests. -/
inductive CMErr
  | tooMany
  deriving DecidableEq

/-- Result of RegisterCancellable: the returned error (if any), the new
registry state, and the emitted timer events. -/
structure RegResult where
  res : Except CMErr Unit
  state : CMState
  events : List CMEvent

/-- CancellationManager.RegisterCancellable: reject at capacity; truncate the
request id to 256 bytes; stop (without firing) the previous timer for that id
if one exists; store the cancel function and arm a fresh cleanup timer. -/
def RegisterCancellable (s : CMState) (requestID : ReqId) (cancelFunc : Nat) :
    RegResult :=
  if s.maxRequests ≤ s.cancellable.length then
    { res := .error .tooMany, state := s, events := [] }
  else
    let rid := if 256 < requestID.length then requestID.take 256 else requestID
    let stopEvts :=
      match alistLookup rid s.timeouts with
      | some t => [CMEvent.timerStopped t]
      | none => []
    let t := s.nextTimer
    { res := .ok ()
      state :=
        { s with
          cancellable := alistInsert rid cancelFunc s.cancellable
          timeouts := alistInsert rid t s.timeouts
          nextTimer := t + 1 }
      events := stopEvts ++ [CMEvent.timerStarted t] }

/-- CancellationManager.cleanupLocked: delete the entry, and stop and delete
its timer if one exists. Returns the new state and the timer events. -/
def cleanupLocked (s : CMState) (requestID : ReqId) : CMState × List CMEvent :=
  let s1 := { s with cancellable := alistErase requestID s.cancellable }
  match alistLookup requestID s.timeouts with
  | some t =>
      ({ s1 with timeouts := alistErase requestID s1.timeouts },
       [CMEvent.timerStopped t])
  | none => (s1, [])

/-- Result of Cancel: the returned boolean, the new state, and the events. -/
structure CancelResult where
  res : Bool
  state : CMState
  events : List CMEvent
  deriving DecidableEq

/-- CancellationManager.Cancel: an empty request id is rejected up front; an
unknown id returns false; otherwise the stored trigger is invoked and the
entry cleaned up. The reason argument is only truncated for logging and does
not affect the state, so it is unused here. -/
def Cancel (s : CMState) (requestID : ReqId) (_reason : List Char) :
    CancelResult :=
  if requestID = [] then { res := false, state := s, events := [] }
  else
    match alistLookup requestID s.cancellable with
    | none => { res := false, state := s, events := [] }
    | some f =>
        let c := cleanupLocked s requestID
        { res := true, state := c.1, events := CMEvent.triggerInvoked f :: c.2 }

/-- CancellationManager.Complete: cleanup without invoking the trigger. -/
def Complete (s : CMState) (requestID : ReqId) : CMState × List CMEvent :=
  cleanupLocked s requestID

/-- The expiry of the cleanup timer armed by RegisterCancellable: when the
live timer for an id fires, it runs cleanup for that id (never invoking the
trigger). A stopped timer does not fire, so expiry is only possible for the
id's current timer. -/
def expireTimer (s : CMState) (requestID : ReqId) : CMState × List CMEvent :=
  match alistLookup requestID s.timeouts with
  | some t =>
      let c := cleanupLocked s requestID
      (c.1, CMEvent.timerFired t :: c.2)
  | none => (s, [])

/-- CancellationManager.ActiveRequests: size of the cancellable map. -/
def ActiveRequests (s : CMState) : Nat := s.cancellable.length

/-- The operations a client (or timer expiry) can perform on the registry. -/
inductive CMOp
  | register (id : ReqId) (f : Nat)
  | cancelOp (id : ReqId) (reason : List Char)
  | completeOp (id : ReqId)
  | expireOp (id : ReqId)

/-- State reached after one registry operation. -/
def applyOp (s : CMState) : CMOp → CMState
  | .register id f => (RegisterCancellable s id f).state
  | .cancelOp id reason => (Cancel s id reason).state
  | .completeOp id => (Complete s id).1
  | .expireOp id => (expireTimer s id).1

/-- State reached after a sequence of registry operations. -/
def runOps (s : CMState) (ops : List CMOp) : CMState := ops.foldl applyOp s

/-- N successive registrations of the same id from a fresh manager, the k-th
registration storing trigger k; returns the final state and all events. -/
def regIter (id : ReqId) : Nat → CMState × List CMEvent
  | 0 => (NewCancellationManager, [])
  | n + 1 =>
      let p := regIter id n
      let r := RegisterCancellable p.1 id (n + 1)
      (r.state, p.2 ++ r.events)

/-- The triggers invoked in an event trace, in order. -/
def triggersOf (evts : List CMEvent) : List Nat :=
  evts.filterMap fun e =>
    match e with
    | CMEvent.triggerInvoked f => some f
    | _ => none

/-- The platform facts about one process id that the liveness checks consult:
whether a process with that id exists, whether the caller may send it a
signal (POSIX), and whether the caller may open it with limited query access
(Windows). -/
structure ProcWorld where
  procExists : Bool
  canSignal : Bool
  canOpen : Bool
  deriving DecidableEq

/-- Errors `Process.Signal(syscall.Signal(0))` can report. -/
inductive SigErr
  | esrch
  | eperm
  | otherErr
  deriving DecidableEq

/-- POSIX semantics of signal 0: ESRCH when no such process, EPERM when the
process exists but the caller may not signal it, success otherwise. -/
def signalZeroResult (w : ProcWorld) : Option SigErr :=
  if w.procExists then (if w.canSignal then none else some .eperm)
  else some .esrch

/-- isProcessAlive from the Unix process file, as a function of the result of
signal 0: success means alive, EPERM means alive (the process exists but we
cannot signal it), anything else means not alive. `os.FindProcess` never
fails on Unix, and no error is ever propagated. -/
def isProcessAliveSignal (r : Option SigErr) : Bool :=
  match r with
  | none => true
  | some .eperm => true
  | some _ => false

/-- The Unix liveness check as a function of the platform facts. -/
def isProcessAliveUnix (w : ProcWorld) : Bool :=
  isProcessAliveSignal (signalZeroResult w)

/-- Windows semantics of OpenProcess with PROCESS_QUERY_LIMITED_INFORMATION:
it succeeds only for an existing process the caller may open. -/
def openProcessSucceeds (w : ProcWorld) : Bool := w.procExists && w.canOpen

/-- isProcessAlive from cmd/process_windows.go: true exactly when OpenProcess
succeeds; every error (including access denied) yields false. -/
def isProcessAliveWindows (w : ProcWorld) : Bool := openProcessSucceeds w

/-- The LockRecord written into the lock directory (lockContent in the lock
file): pid, acquisition time, host name. Times are nanosecond counts. -/
structure LockContent where
  pid : Int
  startTime : Int
  hostname : String

/-- The filesystem and clock facts one staleness check consults:
`readResult` is the outcome of reading and JSON-decoding the content file
(`none` when the read fails, `some none` when it reads but does not parse,
`some (some c)` when it parses to `c`); `alive` is the verdict of the
process liveness check per pid; `dirMTime` is the lock directory's
modification time as seen by stat (`none` when stat fails); `now` is the
current time. -/
structure StaleEnv where
  readResult : Option (Option LockContent)
  alive : Int → Bool
  dirMTime : Option Int
  now : Int

/-- The grace period of ttsMutexFile.isStale: 5 minutes in nanoseconds. -/
def graceNs : Int := 5 * 60 * 1000000000

/-- ttsMutexFile.isStale: if the content file reads and parses, the liveness
of the recorded pid alone decides (alive: not stale, regardless of age; not
alive: stale, regardless of age). Otherwise the directory age decides: stale
exactly when the modification time is more than the grace period ago, and
stale whenever the directory cannot be stat'ed at all. -/
def isStale (env : StaleEnv) : Bool :=
  match env.readResult with
  | some (some c) => if env.alive c.pid then false else true
  | _ =>
      match env.dirMTime with
      | some m => decide (graceNs < env.now - m)
      | none => true

/-- Filesystem operations of the global lock, as trace events. -/
inductive FSEvent
  | mkdirAttempt
  | writeContent
  | readContent
  | statDir
  | renameDir
  | removeAll
  | removeContentFile
  | removeLockDir
  deriving DecidableEq

/-- The filesystem reads isStale performs: it always reads the content file,
and stats the directory only on the fallback path. -/
def staleEvents (env : StaleEnv) : List FSEvent :=
  match env.readResult with
  | some (some _) => [FSEvent.readContent]
  | _ => [FSEvent.readContent, FSEvent.statDir]

/-- Outcomes of one os.Mkdir attempt on the lock directory. -/
inductive MkdirResult
  | success
  | alreadyExists
  | otherError

/-- The oracle for one iteration of the acquire loop: the mkdir outcome, the
staleness environment consulted if the directory already exists, whether the
reclaim rename succeeds, and whether the context is cancelled during the
jittered wait. -/
structure LockIterEnv where
  mkdirRes : MkdirResult
  staleEnv : StaleEnv
  renameOk : Bool
  cancelledInWait : Bool

/-- Errors of the global lock acquisition. -/
inductive GErr
  | mkdirFailed
  | cancelled
  | outOfRetries
  deriving DecidableEq

/-- ttsMutexFile.acquireLock: loop until mkdir succeeds (then write the
LockRecord and stop), fail on any mkdir error other than "already exists",
otherwise try to reclaim a stale lock via atomic rename plus recursive
delete (retrying immediately on success), and otherwise wait with jitter,
aborting if the context is cancelled. The Go loop is unbounded; the model
runs one oracle entry per iteration and reports `outOfRetries` when the
supplied oracle list is exhausted. -/
def acquireLockLoop : List LockIterEnv → List FSEvent × Except GErr Unit
  | [] => ([], .error .outOfRetries)
  | it :: rest =>
      match it.mkdirRes with
      | .success => ([FSEvent.mkdirAttempt, FSEvent.writeContent], .ok ())
      | .otherError => ([FSEvent.mkdirAttempt], .error .mkdirFailed)
      | .alreadyExists =>
          let se := staleEvents it.staleEnv
          if isStale it.staleEnv then
            if it.renameOk then
              let r := acquireLockLoop rest
              (FSEvent.mkdirAttempt :: se ++
                 [FSEvent.renameDir, FSEvent.removeAll] ++ r.1, r.2)
            else if it.cancelledInWait then
              (FSEvent.mkdirAttempt :: se ++ [FSEvent.renameDir],
               .error .cancelled)
            else
              let r := acquireLockLoop rest
              (FSEvent.mkdirAttempt :: se ++ [FSEvent.renameDir] ++ r.1, r.2)
          else if it.cancelledInWait then
            (FSEvent.mkdirAttempt :: se, .error .cancelled)
          else
            let r := acquireLockLoop rest
            (FSEvent.mkdirAttempt :: se ++ r.1, r.2)

/-- acquireGlobalTTSLock: when sequential TTS is disabled it returns at once
with no error, a release capability that does nothing, and an empty
filesystem trace. Otherwise it runs the acquire loop; on success the
returned release capability removes the content file and then the lock
directory. The result pairs the trace of the acquisition with either an
error or the trace the release capability will produce. -/
def acquireGlobalTTSLock (sequentialTTS : Bool) (iters : List LockIterEnv) :
    List FSEvent × Except GErr (List FSEvent) :=
  if !sequentialTTS then ([], .ok [])
  else
    let r := acquireLockLoop iters
    match r.2 with
    | .ok _ => (r.1, .ok [FSEvent.removeContentFile, FSEvent.removeLockDir])
    | .error e => (r.1, .error e)

/-- Lock events of the sequential lock facade: taking and releasing the
in-process mutex, and invoking the global acquisition and its release. -/
inductive LkEvent
  | localLock
  | localUnlock
  | globalAcq
  | globalRel
  deriving DecidableEq

/-- How the facade's select between "local mutex acquired" and "context
done" resolves: either the acquisition wins, or cancellation wins and the
follow-up non-blocking check either observes the mutex as already acquired
(`obtainedAtCheck = true`) or misses it. In the missed case the spawned
goroutine is still blocked in the mutex acquisition when the facade
returns; `laterAcquired` records whether the mutex ever becomes free
afterwards, in which case that orphaned goroutine acquires it (and nothing
ever unlocks it). -/
inductive RaceOutcome
  | localWins
  | ctxWins (obtainedAtCheck : Bool) (laterAcquired : Bool)

/-- Errors of the facade: context cancellation while waiting for the local
mutex, or a failure propagated from the global lock. -/
inductive FacadeErr
  | cancelled
  | globalFailed (e : GErr)
  deriving DecidableEq

/-- Result of the facade: the lock events of the acquisition, and either an
error or the lock events its combined release capability will produce. -/
structure FacadeResult where
  trace : List LkEvent
  outcome : Except FacadeErr (List LkEvent)

/-- acquireTTSLock from cmd/root.go: with sequential TTS disabled, a no-op.
Otherwise the goroutine spawned to take the local mutex races against
cancellation: if cancellation wins and the non-blocking recheck sees the
mutex already acquired, it is unlocked and the context error returned; if
the recheck misses, the facade returns the context error while the
goroutine stays blocked — should the mutex later become free, that orphaned
goroutine acquires it and no code ever unlocks it, so the trace of such an
execution ends in a local lock with no matching unlock. Once the local
mutex is held on the winning path, the global acquisition is invoked
(modelled by its outcome `globalOutcome`, whose success value is the trace
of the global release capability): on error the local mutex is unlocked
before the error is returned; on success the combined release runs the
global release first and the local unlock second. The trace covers the
whole execution, the orphaned goroutine included. -/
def acquireTTSLock (sequentialTTS : Bool) (race : RaceOutcome)
    (globalOutcome : Except GErr (List LkEvent)) : FacadeResult :=
  if !sequentialTTS then { trace := [], outcome := .ok [] }
  else
    match race with
    | .ctxWins true _ =>
        { trace := [LkEvent.localLock, LkEvent.localUnlock]
          outcome := .error .cancelled }
    | .ctxWins false laterAcquired =>
        { trace := if laterAcquired then [LkEvent.localLock] else []
          outcome := .error .cancelled }
    | .localWins =>
        match globalOutcome with
        | .error e =>
            { trace := [LkEvent.localLock, LkEvent.globalAcq,
                        LkEvent.localUnlock]
              outcome := .error (.globalFailed e) }
        | .ok gRel =>
            { trace := [LkEvent.localLock, LkEvent.globalAcq]
              outcome := .ok (gRel ++ [LkEvent.localUnlock]) }

theorem length_alistInsert_le {α : Type} (k : ReqId) (v : α) :
    ∀ l : List (ReqId × α), (alistInsert k v l).length ≤ l.length + 1 := by
  intro l
  induction l with
  | nil => simp [alistInsert]
  | cons p rest ih =>
    simp only [alistInsert]
    split
    · simp only [List.length_cons]
      omega
    · simp only [List.length_cons]
      omega

theorem length_alistErase_le {α : Type} (k : ReqId) :
    ∀ l : List (ReqId × α), (alistErase k l).length ≤ l.length := by
  intro l
  induction l with
  | nil => simp [alistErase]
  | cons p rest ih =>
    simp only [alistErase]
    split
    · simp only [List.length_cons]
      omega
    · simp only [List.length_cons]
      omega

theorem alistErase_of_lookup_none {α : Type} (k : ReqId) (l : List (ReqId × α))
    (h : alistLookup k l = none) : alistErase k l = l := by
  induction l with
  | nil => rfl
  | cons p rest ih =>
    by_cases hpk : p.1 = k
    · simp [alistLookup, hpk] at h
    · simp only [alistLookup, hpk, if_false] at h
      simp [alistErase, hpk, ih h]

theorem alistErase_alistInsert_of_lookup_none {α : Type} (k : ReqId) (v : α)
    (l : List (ReqId × α)) (h : alistLookup k l = none) :
    alistErase k (alistInsert k v l) = l := by
  induction l with
  | nil => simp [alistInsert, alistErase]
  | cons p rest ih =>
    by_cases hpk : p.1 = k
    · simp [alistLookup, hpk] at h
    · simp only [alistLookup, hpk, if_false] at h
      simp [alistInsert, alistErase, hpk, ih h]

theorem alistLookup_alistInsert_self {α : Type} (k : ReqId) (v : α)
    (l : List (ReqId × α)) : alistLookup k (alistInsert k v l) = some v := by
  induction l with
  | nil => simp [alistInsert, alistLookup]
  | cons p rest ih =>
    by_cases hpk : p.1 = k
    · simp [alistInsert, alistLookup, hpk]
    · simp [alistInsert, alistLookup, hpk, ih]

theorem cleanupLocked_cancellable (s : CMState) (id : ReqId) :
    (cleanupLocked s id).1.cancellable = alistErase id s.cancellable := by
  simp only [cleanupLocked]
  split <;> rfl

theorem cleanupLocked_timeouts (s : CMState) (id : ReqId) :
    (cleanupLocked s id).1.timeouts = alistErase id s.timeouts := by
  simp only [cleanupLocked]
  split
  · rfl
  · rename_i h
    exact (alistErase_of_lookup_none id s.timeouts h).symm

theorem cleanupLocked_maxRequests (s : CMState) (id : ReqId) :
    (cleanupLocked s id).1.maxRequests = s.maxRequests := by
  simp only [cleanupLocked]
  split <;> rfl

theorem RegisterCancellable_maxRequests (s : CMState) (id : ReqId) (f : Nat) :
    (RegisterCancellable s id f).state.maxRequests = s.maxRequests := by
  simp only [RegisterCancellable]
  split <;> rfl

theorem Cancel_maxRequests (s : CMState) (id : ReqId) (r : List Char) :
    (Cancel s id r).state.maxRequests = s.maxRequests := by
  simp only [Cancel]
  split
  · rfl
  · split
    · rfl
    · exact cleanupLocked_maxRequests s id

theorem expireTimer_maxRequests (s : CMState) (id : ReqId) :
    (expireTimer s id).1.maxRequests = s.maxRequests := by
  simp only [expireTimer]
  split
  · exact cleanupLocked_maxRequests s id
  · rfl

theorem applyOp_maxRequests (s : CMState) (op : CMOp) :
    (applyOp s op).maxRequests = s.maxRequests := by
  cases op with
  | register id f => exact RegisterCancellable_maxRequests s id f
  | cancelOp id reason => exact Cancel_maxRequests s id reason
  | completeOp id => exact cleanupLocked_maxRequests s id
  | expireOp id => exact expireTimer_maxRequests s id

theorem applyOp_active_le (s : CMState) (op : CMOp)
    (h : ActiveRequests s ≤ s.maxRequests) :
    ActiveRequests (applyOp s op) ≤ s.maxRequests := by
  cases op with
  | register id f =>
    simp only [applyOp, ActiveRequests, RegisterCancellable] at h ⊢
    split
    · exact h
    · rename_i hcap
      have hins := length_alistInsert_le
        (if 256 < id.length then id.take 256 else id) f s.cancellable
      simp only [Nat.not_le] at hcap
      simpa using Nat.le_of_lt_succ (Nat.lt_succ_of_le
        (le_trans hins (by omega)))
  | cancelOp id reason =>
    simp only [applyOp, ActiveRequests, Cancel] at h ⊢
    split
    · exact h
    · split
      · exact h
      · rw [cleanupLocked_cancellable]
        exact le_trans (length_alistErase_le id s.cancellable) h
  | completeOp id =>
    simp only [applyOp, ActiveRequests, Complete] at h ⊢
    rw [cleanupLocked_cancellable]
    exact le_trans (length_alistErase_le id s.cancellable) h
  | expireOp id =>
    simp only [applyOp, ActiveRequests, expireTimer] at h ⊢
    split
    · rw [cleanupLocked_cancellable]
      exact le_trans (length_alistErase_le id s.cancellable) h
    · exact h

theorem runOps_maxRequests :
    ∀ (ops : List CMOp) (s : CMState),
      (runOps s ops).maxRequests = s.maxRequests := by
  intro ops
  induction ops with
  | nil => intro s; rfl
  | cons op rest ih =>
    intro s
    show (runOps (applyOp s op) rest).maxRequests = s.maxRequests
    rw [ih, applyOp_maxRequests]

theorem runOps_active_le :
    ∀ (ops : List CMOp) (s : CMState),
      ActiveRequests s ≤ s.maxRequests →
      ActiveRequests (runOps s ops) ≤ s.maxRequests := by
  intro ops
  induction ops with
  | nil => intro s h; exact h
  | cons op rest ih =>
    intro s h
    show ActiveRequests (runOps (applyOp s op) rest) ≤ s.maxRequests
    have h1 : ActiveRequests (applyOp s op) ≤ (applyOp s op).maxRequests := by
      rw [applyOp_maxRequests]
      exact applyOp_active_le s op h
    have h2 := ih (applyOp s op) h1
    rwa [applyOp_maxRequests] at h2

/-- Concrete staleness environment: a parsed record for pid 42, an alive
verdict, and a directory far older than the grace period. -/
def c1env : StaleEnv :=
  { readResult := some (some { pid := 42, startTime := 0, hostname := "h" })
    alive := fun _ => true
    dirMTime := some 0
    now := 100 * graceNs }

/-- C1: for every staleness check in which the LockRecord content file is
readable and parses, isStale is decided solely by the process liveness check
on the recorded pid — false when the pid is alive and true when it is not,
regardless of the directory age, the current time, or the recorded
timestamp, and with no timeout involved. -/
theorem c1_isStale_liveness (env : StaleEnv) (c : LockContent)
    (h : env.readResult = some (some c)) :
    isStale env = ! env.alive c.pid := by
  simp only [isStale, h]
  cases halive : env.alive c.pid <;> simp [halive]

/-- Witness for C1: a lock whose record names a live pid is not stale even
though the directory is a hundred grace periods old. -/
theorem c1_isStale_liveness_witness : isStale c1env = false :=
  (c1_isStale_liveness c1env { pid := 42, startTime := 0, hostname := "h" }
    rfl).trans rfl

/-- Concrete staleness environment: unreadable record, directory just past
the grace period. -/
def c2env : StaleEnv :=
  { readResult := none
    alive := fun _ => false
    dirMTime := some 0
    now := graceNs + 1 }

/-- C2: for every staleness check in which the LockRecord is missing
(unreadable) or unparseable, isStale is true exactly when the lock
directory's modification time is more than the five-minute grace period in
the past, and isStale is true whenever the directory cannot be stat'ed. -/
theorem c2_isStale_fallback (env : StaleEnv)
    (h : env.readResult = none ∨ env.readResult = some none) :
    (∀ m, env.dirMTime = some m →
       isStale env = decide (graceNs < env.now - m)) ∧
    (env.dirMTime = none → isStale env = true) := by
  constructor
  · intro m hm
    rcases h with h | h <;> simp [isStale, h, hm]
  · intro hm
    rcases h with h | h <;> simp [isStale, h, hm]

/-- Witness for C2: with an unreadable record and a directory one tick older
than the grace period, the lock is stale. -/
theorem c2_isStale_fallback_witness : isStale c2env = true := by
  have h := (c2_isStale_fallback c2env (Or.inl rfl)).1 0 rfl
  rw [h]
  decide

/-- C7: with sequential TTS administratively disabled, the global lock
acquisition returns at once with no error, its trace of filesystem
operations is empty (nothing created, read, stat'ed, renamed, or removed,
no matter what the retry oracle would have offered), and the returned
release capability performs no filesystem operation either; the facade
likewise degenerates to a pure no-op. -/
theorem c7_disabled_untouched :
    (∀ iters : List LockIterEnv,
       acquireGlobalTTSLock false iters = ([], Except.ok [])) ∧
    (∀ (race : RaceOutcome) (g : Except GErr (List LkEvent)),
       acquireTTSLock false race g =
         { trace := [], outcome := Except.ok [] }) :=
  ⟨fun _ => rfl, fun _ _ => rfl⟩

/-- C5: when sequential TTS is enabled and the local mutex is obtained, the
facade takes the local lock before invoking the global acquisition; if the
global acquisition fails, the local mutex is unlocked before the error is
returned (the trace ends with the local unlock); and on success the combined
release capability replays the global release first and unlocks the local
mutex second. -/
theorem c5_facade_ordering :
    (∀ e : GErr,
       acquireTTSLock true RaceOutcome.localWins (Except.error e) =
         { trace := [LkEvent.localLock, LkEvent.globalAcq,
                     LkEvent.localUnlock]
           outcome := Except.error (FacadeErr.globalFailed e) }) ∧
    (∀ gRel : List LkEvent,
       acquireTTSLock true RaceOutcome.localWins (Except.ok gRel) =
         { trace := [LkEvent.localLock, LkEvent.globalAcq]
           outcome := Except.ok (gRel ++ [LkEvent.localUnlock]) }) :=
  ⟨fun _ => rfl, fun _ => rfl⟩

/-- C8: evaluation of the facade at the failing execution. When cancellation
wins and the non-blocking recheck observes the mutex as obtained, the
facade does unlock it before returning the cancellation error. But when the
recheck misses and the mutex later becomes free, the orphaned goroutine
acquires it and the execution contains no matching unlock: the in-process
mutex is leaked on this cancellation path, contrary to the claim (the
cancellation error is still returned and the global acquisition is never
invoked). -/
theorem c8_facade_cancellation_leak (g : Except GErr (List LkEvent)) :
    acquireTTSLock true (RaceOutcome.ctxWins false true) g =
      { trace := [LkEvent.localLock]
        outcome := Except.error FacadeErr.cancelled } ∧
    LkEvent.localUnlock ∉
      (acquireTTSLock true (RaceOutcome.ctxWins false true) g).trace ∧
    acquireTTSLock true (RaceOutcome.ctxWins true true) g =
      { trace := [LkEvent.localLock, LkEvent.localUnlock]
        outcome := Except.error FacadeErr.cancelled } := by
  refine ⟨rfl, ?_, rfl⟩
  show LkEvent.localUnlock ∉ [LkEvent.localLock]
  decide

/-- A process that exists but that the caller may neither signal nor open. -/
def c9world : ProcWorld :=
  { procExists := true, canSignal := false, canOpen := false }

/-- Counterexample to C9 as stated: on Windows, a process that exists but
whose handle cannot be opened (permission denied) is reported NOT alive,
contradicting the claim that IsAlive returns true whenever the process
exists even under a permission error. -/
theorem c9_liveness_cex :
    c9world.procExists = true ∧ isProcessAliveWindows c9world = false :=
  ⟨rfl, rfl⟩

/-- C9 (amended): on Unix, isProcessAlive returns true exactly when the
process exists — including when signaling it is denied (EPERM) — and false
when it does not; on Windows, isProcessAlive returns true exactly when
OpenProcess with limited query access succeeds, so an existing process whose
open is denied reports false. Both variants are total boolean functions:
every platform error is folded into the result, never propagated. -/
theorem c9_liveness_amended :
    (∀ w : ProcWorld, w.procExists = true → isProcessAliveUnix w = true) ∧
    (∀ w : ProcWorld, w.procExists = false → isProcessAliveUnix w = false) ∧
    (∀ w : ProcWorld,
       isProcessAliveWindows w = (w.procExists && w.canOpen)) := by
  refine ⟨?_, ?_, ?_⟩
  · intro w h
    cases hc : w.canSignal <;>
      simp [isProcessAliveUnix, signalZeroResult, isProcessAliveSignal, h, hc]
  · intro w h
    simp [isProcessAliveUnix, signalZeroResult, isProcessAliveSignal, h]
  · intro w
    rfl

/-- Witness for C9 (amended): an existing but unsignalable process is alive
on Unix; a nonexistent one is not. -/
theorem c9_liveness_amended_witness :
    isProcessAliveUnix
      { procExists := true, canSignal := false, canOpen := false } = true ∧
    isProcessAliveUnix
      { procExists := false, canSignal := true, canOpen := true } = false :=
  ⟨c9_liveness_amended.1 _ rfl, c9_liveness_amended.2.1 _ rfl⟩

/-- C3: registration is rejected with ErrTooManyRequests — and the state is
left untouched — whenever the number of live entries is at or above the
configured maximum; and along every call sequence of register, cancel,
complete and timer expiry from a fresh manager, ActiveRequests never exceeds
the fixed maximum of 1000. -/
theorem c3_capacity_invariant :
    (∀ (s : CMState) (id : ReqId) (f : Nat),
       s.maxRequests ≤ s.cancellable.length →
       (RegisterCancellable s id f).res = Except.error CMErr.tooMany ∧
       (RegisterCancellable s id f).state = s) ∧
    (∀ ops : List CMOp,
       ActiveRequests (runOps NewCancellationManager ops) ≤
         MaxConcurrentRequests) := by
  constructor
  · intro s id f h
    refine ⟨?_, ?_⟩ <;> simp only [RegisterCancellable, if_pos h]
  · intro ops
    have h0 : ActiveRequests NewCancellationManager ≤
        NewCancellationManager.maxRequests := by
      simp [ActiveRequests, NewCancellationManager]
    exact runOps_active_le ops NewCancellationManager h0

/-- A registry at its capacity of one. -/
def c3state : CMState :=
  { cancellable := [(['a'], 1)], timeouts := [(['a'], 0)]
    nextTimer := 1, maxRequests := 1 }

/-- Witness for C3: a full registry rejects a new registration unchanged. -/
theorem c3_capacity_invariant_witness :
    (RegisterCancellable c3state ['b'] 2).res =
      Except.error CMErr.tooMany ∧
    (RegisterCancellable c3state ['b'] 2).state = c3state :=
  c3_capacity_invariant.1 c3state ['b'] 2 (by decide)

/-- A registry holding a single entry under the empty request id, reached by
one registration. -/
def c6state : CMState :=
  (RegisterCancellable NewCancellationManager [] 7).state

/-- Counterexample to C6 as stated: the registry holds a live entry under the
empty id, yet Cancel on that id returns false, mutates nothing, and invokes
no trigger — the claim requires Cancel on an id with a live entry to invoke
the trigger and return true. -/
theorem c6_cancel_cex :
    alistLookup [] c6state.cancellable = some 7 ∧
    (Cancel c6state [] ['x']).res = false ∧
    (Cancel c6state [] ['x']).state = c6state ∧
    (Cancel c6state [] ['x']).events = [] := by
  decide

/-- The triggers invoked during cleanup: none (cleanup only touches timers). -/
theorem triggersOf_cleanupLocked (s : CMState) (id : ReqId) :
    triggersOf (cleanupLocked s id).2 = [] := by
  cases h : alistLookup id s.timeouts <;> simp [cleanupLocked, h, triggersOf]

/-- C6 (amended): Cancel on an id with no live entry returns false and leaves
the registry unchanged; Cancel on the empty id always returns false and
leaves the registry unchanged, even when an entry is live under the empty
id; and Cancel on any nonempty id with a live entry invokes the stored
trigger exactly once, removes the entry, stops and removes its timer, and
returns true. -/
theorem c6_cancel_amended (s : CMState) (id : ReqId) (reason : List Char) :
    (alistLookup id s.cancellable = none →
       Cancel s id reason = { res := false, state := s, events := [] }) ∧
    (id = [] →
       Cancel s id reason = { res := false, state := s, events := [] }) ∧
    (∀ f, id ≠ [] → alistLookup id s.cancellable = some f →
       (Cancel s id reason).res = true ∧
       triggersOf (Cancel s id reason).events = [f] ∧
       (Cancel s id reason).state.cancellable =
         alistErase id s.cancellable ∧
       (Cancel s id reason).state.timeouts = alistErase id s.timeouts ∧
       (∀ t, alistLookup id s.timeouts = some t →
          CMEvent.timerStopped t ∈ (Cancel s id reason).events)) := by
  refine ⟨?_, ?_, ?_⟩
  · intro h
    by_cases hid : id = []
    · simp [Cancel, hid]
    · simp [Cancel, hid, h]
  · intro h
    simp [Cancel, h]
  · intro f hid h
    have hres : Cancel s id reason =
        { res := true, state := (cleanupLocked s id).1
          events := CMEvent.triggerInvoked f :: (cleanupLocked s id).2 } := by
      simp [Cancel, hid, h]
    rw [hres]
    refine ⟨rfl, ?_, cleanupLocked_cancellable s id,
            cleanupLocked_timeouts s id, ?_⟩
    · show triggersOf (CMEvent.triggerInvoked f ::
        (cleanupLocked s id).2) = [f]
      have h2 := triggersOf_cleanupLocked s id
      show f :: triggersOf (cleanupLocked s id).2 = [f]
      rw [h2]
    · intro t ht
      simp [cleanupLocked, ht]

/-- A registry with one entry under a one-character id. -/
def c6wstate : CMState :=
  { cancellable := [(['a'], 9)], timeouts := [(['a'], 3)]
    nextTimer := 4, maxRequests := 1000 }

/-- Witness for C6 (amended): cancelling a live nonempty id succeeds and
invokes its trigger once; cancelling an unknown id is a no-op. -/
theorem c6_cancel_amended_witness :
    (Cancel c6wstate ['a'] ['x']).res = true ∧
    triggersOf (Cancel c6wstate ['a'] ['x']).events = [9] ∧
    Cancel c6wstate ['b'] ['x'] =
      { res := false, state := c6wstate, events := [] } := by
  have h2 := (c6_cancel_amended c6wstate ['b'] ['x']).1 (by decide)
  obtain ⟨hres, htr, _⟩ :=
    (c6_cancel_amended c6wstate ['a'] ['x']).2.2 9 (by decide) (by decide)
  exact ⟨hres, htr, h2⟩

/-- C10: for every id of at most 256 characters that is not currently
registered, in a registry below capacity, RegisterCancellable stores the
entry under the id itself and a following Complete removes it again,
restoring ActiveRequests and the cancellable map to their prior values; and
the 256-character bound is essential: a 257-character id is stored under its
truncation, so Complete with the unmodified id fails to remove it and
ActiveRequests stays elevated. -/
theorem c10_register_complete_roundtrip :
    (∀ (s : CMState) (id : ReqId) (f : Nat),
       id.length ≤ 256 →
       alistLookup id s.cancellable = none →
       s.cancellable.length < s.maxRequests →
       (RegisterCancellable s id f).res = Except.ok () ∧
       alistLookup id (RegisterCancellable s id f).state.cancellable =
         some f ∧
       (Complete (RegisterCancellable s id f).state id).1.cancellable =
         s.cancellable ∧
       ActiveRequests (Complete (RegisterCancellable s id f).state id).1 =
         ActiveRequests s) ∧
    (alistLookup (List.replicate 257 'a')
        (RegisterCancellable NewCancellationManager
          (List.replicate 257 'a') 5).state.cancellable = none ∧
     alistLookup ((List.replicate 257 'a').take 256)
        (RegisterCancellable NewCancellationManager
          (List.replicate 257 'a') 5).state.cancellable = some 5 ∧
     ActiveRequests
        (Complete (RegisterCancellable NewCancellationManager
          (List.replicate 257 'a') 5).state (List.replicate 257 'a')).1
       = 1) := by
  constructor
  · intro s id f hlen hnone hcap
    have hnotle : ¬ s.maxRequests ≤ s.cancellable.length :=
      Nat.not_le.mpr hcap
    have htr : ¬ 256 < id.length := Nat.not_lt.mpr hlen
    have hstate : (RegisterCancellable s id f).state.cancellable =
        alistInsert id f s.cancellable := by
      simp [RegisterCancellable, hnotle, htr]
    have hcomp : (Complete (RegisterCancellable s id f).state id).1.cancellable
        = s.cancellable := by
      rw [Complete, cleanupLocked_cancellable, hstate]
      exact alistErase_alistInsert_of_lookup_none id f s.cancellable hnone
    refine ⟨?_, ?_, hcomp, ?_⟩
    · simp [RegisterCancellable, hnotle]
    · rw [hstate]
      exact alistLookup_alistInsert_self id f s.cancellable
    · show (Complete (RegisterCancellable s id f).state id).1.cancellable.length
        = s.cancellable.length
      rw [hcomp]
  · have h257 : (256 : Nat) < (List.replicate 257 'a' : ReqId).length := by
      rw [List.length_replicate]
      omega
    have hne : ((List.replicate 257 'a' : ReqId).take 256) ≠
        List.replicate 257 'a' := by
      intro h
      have hl := congrArg List.length h
      simp only [List.length_take, List.length_replicate] at hl
      omega
    have hgen : ∀ idx : ReqId, 256 < idx.length →
        (RegisterCancellable NewCancellationManager idx 5).state.cancellable =
          [(idx.take 256, 5)] := by
      intro idx h
      simp only [RegisterCancellable]
      rw [if_neg (show ¬ (NewCancellationManager.maxRequests ≤
            NewCancellationManager.cancellable.length) by decide),
          if_pos h]
      rfl
    have hreg := hgen (List.replicate 257 'a') h257
    have hlook : alistLookup (List.replicate 257 'a')
        [((List.replicate 257 'a').take 256, (5 : Nat))] = none := by
      simp only [alistLookup, if_neg hne]
    refine ⟨?_, ?_, ?_⟩
    · rw [hreg]
      exact hlook
    · rw [hreg]
      exact alistLookup_alistInsert_self ((List.replicate 257 'a').take 256)
        5 []
    · show (Complete (RegisterCancellable NewCancellationManager
          (List.replicate 257 'a') 5).state
          (List.replicate 257 'a')).1.cancellable.length = 1
      rw [Complete, cleanupLocked_cancellable, hreg,
        alistErase_of_lookup_none _ _ hlook]
      rfl

/-- Witness for C10: a one-character id round-trips through register and
complete, restoring the empty registry's count. -/
theorem c10_register_complete_roundtrip_witness :
    (RegisterCancellable NewCancellationManager ['a'] 3).res =
      Except.ok () ∧
    ActiveRequests
      (Complete (RegisterCancellable NewCancellationManager ['a'] 3).state
        ['a']).1 = ActiveRequests NewCancellationManager := by
  obtain ⟨h1, _, _, h4⟩ := c10_register_complete_roundtrip.1
    NewCancellationManager ['a'] 3 (by decide) (by decide) (by decide)
  exact ⟨h1, h4⟩

theorem RegisterCancellable_state_eq (s : CMState) (id : ReqId) (f : Nat)
    (hcap : s.cancellable.length < s.maxRequests) (hlen : id.length ≤ 256) :
    (RegisterCancellable s id f).state =
      { s with
        cancellable := alistInsert id f s.cancellable
        timeouts := alistInsert id s.nextTimer s.timeouts
        nextTimer := s.nextTimer + 1 } := by
  have hnotle : ¬ s.maxRequests ≤ s.cancellable.length := Nat.not_le.mpr hcap
  have htr : ¬ 256 < id.length := Nat.not_lt.mpr hlen
  simp [RegisterCancellable, hnotle, htr]

theorem RegisterCancellable_events_none (s : CMState) (id : ReqId) (f : Nat)
    (hcap : s.cancellable.length < s.maxRequests) (hlen : id.length ≤ 256)
    (h : alistLookup id s.timeouts = none) :
    (RegisterCancellable s id f).events =
      [CMEvent.timerStarted s.nextTimer] := by
  have hnotle : ¬ s.maxRequests ≤ s.cancellable.length := Nat.not_le.mpr hcap
  have htr : ¬ 256 < id.length := Nat.not_lt.mpr hlen
  simp [RegisterCancellable, hnotle, htr, h]

theorem RegisterCancellable_events_some (s : CMState) (id : ReqId)
    (f t : Nat)
    (hcap : s.cancellable.length < s.maxRequests) (hlen : id.length ≤ 256)
    (h : alistLookup id s.timeouts = some t) :
    (RegisterCancellable s id f).events =
      [CMEvent.timerStopped t, CMEvent.timerStarted s.nextTimer] := by
  have hnotle : ¬ s.maxRequests ≤ s.cancellable.length := Nat.not_le.mpr hcap
  have htr : ¬ 256 < id.length := Nat.not_lt.mpr hlen
  simp [RegisterCancellable, hnotle, htr, h]

theorem regIter_state (id : ReqId) (hlen : id.length ≤ 256) :
    ∀ n : Nat, (regIter id (n + 1)).1 =
      { cancellable := [(id, n + 1)], timeouts := [(id, n)]
        nextTimer := n + 1, maxRequests := 1000 } := by
  intro n
  induction n with
  | zero =>
    show (RegisterCancellable NewCancellationManager id 1).state = _
    rw [RegisterCancellable_state_eq NewCancellationManager id 1
      (by decide) hlen]
    rfl
  | succ n ih =>
    show (RegisterCancellable (regIter id (n + 1)).1 id (n + 2)).state = _
    rw [ih]
    rw [RegisterCancellable_state_eq _ id (n + 2) (by simp) hlen]
    simp [alistInsert]

theorem regIter_events_one (id : ReqId) (hlen : id.length ≤ 256) :
    (regIter id 1).2 = [CMEvent.timerStarted 0] := by
  show ([] : List CMEvent) ++
    (RegisterCancellable NewCancellationManager id 1).events = _
  rw [RegisterCancellable_events_none NewCancellationManager id 1
    (by decide) hlen rfl]
  rfl

theorem regIter_events_succ (id : ReqId) (hlen : id.length ≤ 256) (n : Nat) :
    (regIter id (n + 2)).2 = (regIter id (n + 1)).2 ++
      [CMEvent.timerStopped n, CMEvent.timerStarted (n + 1)] := by
  show (regIter id (n + 1)).2 ++
    (RegisterCancellable (regIter id (n + 1)).1 id (n + 2)).events = _
  rw [regIter_state id hlen n]
  rw [RegisterCancellable_events_some _ id (n + 2) n (by simp) hlen
    (by simp [alistLookup])]

theorem regIter_no_fired (id : ReqId) (hlen : id.length ≤ 256) :
    ∀ (n : Nat) (t : Nat),
      CMEvent.timerFired t ∉ (regIter id (n + 1)).2 := by
  intro n
  induction n with
  | zero =>
    intro t
    rw [regIter_events_one id hlen]
    simp
  | succ n ih =>
    intro t
    rw [regIter_events_succ id hlen n]
    simp only [List.mem_append]
    rintro (h | h)
    · exact ih t h
    · simp at h

theorem regIter_stopped_mem (id : ReqId) (hlen : id.length ≤ 256) :
    ∀ (n : Nat) (k : Nat), k + 1 < n + 1 →
      CMEvent.timerStopped k ∈ (regIter id (n + 1)).2 := by
  intro n
  induction n with
  | zero =>
    intro k hk
    omega
  | succ n ih =>
    intro k hk
    rw [regIter_events_succ id hlen n]
    by_cases hkn : k = n
    · subst hkn
      exact List.mem_append_right _ (by simp)
    · exact List.mem_append_left _ (ih k (by omega))

/-- C4 (amended): for every nonempty correlation id of at most 256
characters, registering it N times in a row (N at least 1, the k-th
registration storing trigger k) leaves exactly one live entry, holding the
last trigger, and exactly one live timer for that id; every superseded
registration's timer is stopped and no timer ever fires during the
registrations; and a subsequent Cancel succeeds and invokes exactly the most
recently registered trigger. For the empty id, N registrations likewise
leave exactly one live entry and one live timer and fire no timer, but a
subsequent Cancel is rejected: it returns false, invokes nothing, and
changes nothing. -/
theorem c4_reregistration (n : Nat) (reason : List Char) :
    (∀ id : ReqId, id ≠ [] → id.length ≤ 256 →
       (regIter id (n + 1)).1.cancellable = [(id, n + 1)] ∧
       (regIter id (n + 1)).1.timeouts = [(id, n)] ∧
       (∀ t, CMEvent.timerFired t ∉ (regIter id (n + 1)).2) ∧
       (∀ k, k + 1 < n + 1 →
          CMEvent.timerStopped k ∈ (regIter id (n + 1)).2) ∧
       (Cancel (regIter id (n + 1)).1 id reason).res = true ∧
       triggersOf (Cancel (regIter id (n + 1)).1 id reason).events =
         [n + 1]) ∧
    ((regIter [] (n + 1)).1.cancellable = [([], n + 1)] ∧
     (regIter [] (n + 1)).1.timeouts = [([], n)] ∧
     (∀ t, CMEvent.timerFired t ∉ (regIter [] (n + 1)).2) ∧
     (Cancel (regIter [] (n + 1)).1 [] reason).res = false ∧
     (Cancel (regIter [] (n + 1)).1 [] reason).events = [] ∧
     (Cancel (regIter [] (n + 1)).1 [] reason).state =
       (regIter [] (n + 1)).1) := by
  constructor
  · intro id hne hlen
    have hst := regIter_state id hlen n
    refine ⟨by rw [hst], by rw [hst], regIter_no_fired id hlen n,
            regIter_stopped_mem id hlen n, ?_, ?_⟩
    · rw [hst]
      simp [Cancel, hne, alistLookup]
    · rw [hst]
      simp [Cancel, hne, alistLookup, cleanupLocked, triggersOf]
  · have hst := regIter_state [] (by decide) n
    exact ⟨by rw [hst], by rw [hst], regIter_no_fired [] (by decide) n,
           rfl, rfl, rfl⟩

/-- The registry after registering the empty id twice, with triggers 1 and
then 2. -/
def c4state : CMState :=
  (RegisterCancellable
    (RegisterCancellable NewCancellationManager [] 1).state [] 2).state

/-- Counterexample to C4 as stated: after registering the empty correlation
id twice, exactly one entry is live (holding the latest trigger), yet a
subsequent Cancel returns false and invokes no trigger at all — not the most
recently registered one, as the claim requires. -/
theorem c4_reregistration_cex :
    ActiveRequests c4state = 1 ∧
    alistLookup [] c4state.cancellable = some 2 ∧
    (Cancel c4state [] ['b']).res = false ∧
    CMEvent.triggerInvoked 2 ∉ (Cancel c4state [] ['b']).events := by
  decide

/-- Witness for C4 (amended): registering id "a" twice then cancelling
leaves one entry and invokes exactly trigger 2; registering the empty id
twice leaves one entry but its Cancel returns false. -/
theorem c4_reregistration_witness :
    (regIter ['a'] 2).1.cancellable = [(['a'], 2)] ∧
    (regIter ['a'] 2).1.timeouts = [(['a'], 1)] ∧
    (Cancel (regIter ['a'] 2).1 ['a'] ['b']).res = true ∧
    triggersOf (Cancel (regIter ['a'] 2).1 ['a'] ['b']).events = [2] ∧
    (regIter [] 2).1.cancellable = [([], 2)] ∧
    (Cancel (regIter [] 2).1 [] ['b']).res = false := by
  obtain ⟨h1, h2, _, _, h5, h6⟩ :=
    (c4_reregistration 1 ['b']).1 ['a'] (by decide) (by decide)
  obtain ⟨e1, _, _, e4, _, _⟩ := (c4_reregistration 1 ['b']).2
  exact ⟨h1, h2, h5, h6, e1, e4⟩
